import Mathlib

set_option maxRecDepth 16384

/-!
Verification development for the Echoport backup/restore orchestration
service. The definitions below are a shallow embedding of the Python
source under `src/backups/`: the FastDeploy client result parsing
(`fastdeploy_client.py`), the backup and restore orchestration engines
(`backup_engine.py`, `restore_engine.py`), the MinIO deletion wrapper
(`minio_client.py`), the retention cleanup command
(`cleanup_old_backups.py`), the scheduler command
(`run_scheduled_backups.py`) and the health endpoint (`views.py`).
External collaborators (the FastDeploy HTTP service, the database row
locks, the `mc` subprocess, the croniter library, the wall clock) are
modelled as explicit parameters, so every embedded operation is a pure
function of its inputs.

Timestamps are modelled as integers (seconds); a Python `timedelta` of
`d` days is `d * 86400` seconds.
-/

namespace Echoport

/-! ## JSON values

Embedding of the values produced by Python `json.loads`. Numbers are
restricted to integers: every payload the system emits or consumes uses
integer fields only, and the embedded decoder rejects fractional or
exponent syntax rather than approximating floats. -/

inductive Json where
  | null : Json
  | bool (b : Bool) : Json
  | num (n : Int) : Json
  | str (s : String) : Json
  | arr (xs : List Json) : Json
  | obj (kvs : List (String × Json)) : Json
deriving Repr

/-- Python truthiness of a decoded JSON value: `None`, `False`, `0`, the
empty string, the empty list and the empty dict are falsy. -/
def Json.truthy : Json → Bool
  | .null => false
  | .bool b => b
  | .num n => n != 0
  | .str s => s != ""
  | .arr xs => !xs.isEmpty
  | .obj kvs => !kvs.isEmpty

/-- `d[k]` lookup on a decoded JSON object. Python builds a `dict`, so a
duplicated key keeps the value written last. -/
def dGet (kvs : List (String × Json)) (k : String) : Option Json :=
  kvs.foldl (fun acc p => if p.1 = k then some p.2 else acc) none

/-- `d.get(k, v)` on a decoded JSON object. -/
def dGetD (kvs : List (String × Json)) (k : String) (v : Json) : Json :=
  (dGet kvs k).getD v

/-! ### A JSON text decoder (embedding of `json.loads`)

Implemented over `List Char` so that concrete witnesses evaluate cheaply.
The decoder handles the full object/array/string/number/keyword grammar
with the two documented restrictions (integer numbers only, and string
escapes limited to the common single-character escapes; `\uXXXX` is
rejected). No payload in any claim uses the rejected forms. -/

/-- Whitespace skipping, as in Python json (space, tab, newline, return). -/
def skipWs : List Char → List Char
  | c :: cs => if c = ' ' || c = '\t' || c = '\n' || c = '\r' then skipWs cs else c :: cs
  | [] => []

/-- Does the character list start with the given pattern? -/
def startsWithChars : List Char → List Char → Bool
  | [], _ => true
  | _ :: _, [] => false
  | p :: ps, c :: cs => p = c && startsWithChars ps cs

/-- Decode a JSON string body after the opening quote; returns the decoded
characters and the remainder after the closing quote. -/
def decodeStringBody : List Char → Option (List Char × List Char)
  | [] => none
  | c :: cs =>
    if c = '"' then some ([], cs)
    else if c = '\\' then
      match cs with
      | [] => none
      | e :: cs2 =>
        let dec : Option Char :=
          if e = '"' then some '"'
          else if e = '\\' then some '\\'
          else if e = '/' then some '/'
          else if e = 'n' then some '\n'
          else if e = 't' then some '\t'
          else if e = 'r' then some '\r'
          else none
        match dec with
        | none => none
        | some d =>
          match decodeStringBody cs2 with
          | some (body, rest) => some (d :: body, rest)
          | none => none
    else
      match decodeStringBody cs with
      | some (body, rest) => some (c :: body, rest)
      | none => none

/-- Decode a run of decimal digits into a natural number. -/
def decodeDigits (acc : Nat) : List Char → (Nat × List Char)
  | [] => (acc, [])
  | c :: cs =>
    if c.isDigit then decodeDigits (acc * 10 + (c.toNat - '0'.toNat)) cs
    else (acc, c :: cs)

/-- A number literal may not be followed by a fraction or exponent
(documented integer-only restriction of the embedded decoder). -/
def numberTailOk : List Char → Bool
  | c :: _ => !(c = '.' || c = 'e' || c = 'E')
  | [] => true

mutual

/-- Decode one JSON value; fuel bounds recursion depth. -/
def decodeVal : Nat → List Char → Option (Json × List Char)
  | 0, _ => none
  | fuel + 1, cs =>
    match skipWs cs with
    | [] => none
    | c :: rest =>
      if c = 'n' then
        if startsWithChars ['u', 'l', 'l'] rest then some (.null, rest.drop 3) else none
      else if c = 't' then
        if startsWithChars ['r', 'u', 'e'] rest then some (.bool true, rest.drop 3) else none
      else if c = 'f' then
        if startsWithChars ['a', 'l', 's', 'e'] rest then some (.bool false, rest.drop 4) else none
      else if c = '"' then
        match decodeStringBody rest with
        | some (body, rest2) => some (.str (String.mk body), rest2)
        | none => none
      else if c = '-' then
        match rest with
        | d :: _ =>
          if d.isDigit then
            let r := decodeDigits 0 rest
            if numberTailOk r.2 then some (.num (-(r.1 : Int)), r.2) else none
          else none
        | [] => none
      else if c.isDigit then
        let r := decodeDigits 0 (c :: rest)
        if numberTailOk r.2 then some (.num (r.1 : Int), r.2) else none
      else if c = '[' then
        match skipWs rest with
        | ']' :: rest2 => some (.arr [], rest2)
        | rest2 => decodeItems fuel rest2
      else if c = '{' then
        match skipWs rest with
        | '}' :: rest2 => some (.obj [], rest2)
        | rest2 => decodeMembers fuel rest2
      else none

/-- Decode the non-empty tail of a JSON array. -/
def decodeItems : Nat → List Char → Option (Json × List Char)
  | 0, _ => none
  | fuel + 1, cs =>
    match decodeVal fuel cs with
    | none => none
    | some (v, rest) =>
      match skipWs rest with
      | ',' :: rest2 =>
        match decodeItems fuel rest2 with
        | some (.arr vs, rest3) => some (.arr (v :: vs), rest3)
        | _ => none
      | ']' :: rest2 => some (.arr [v], rest2)
      | _ => none

/-- Decode the non-empty tail of a JSON object. -/
def decodeMembers : Nat → List Char → Option (Json × List Char)
  | 0, _ => none
  | fuel + 1, cs =>
    match skipWs cs with
    | '"' :: rest =>
      match decodeStringBody rest with
      | none => none
      | some (keyBody, rest2) =>
        match skipWs rest2 with
        | ':' :: rest3 =>
          match decodeVal fuel rest3 with
          | none => none
          | some (v, rest4) =>
            match skipWs rest4 with
            | ',' :: rest5 =>
              match decodeMembers fuel rest5 with
              | some (.obj kvs, rest6) => some (.obj ((String.mk keyBody, v) :: kvs), rest6)
              | _ => none
            | '}' :: rest5 => some (.obj [(String.mk keyBody, v)], rest5)
            | _ => none
        | _ => none
    | _ => none

end

/-- Embedding of `json.loads`: decode one value and require only trailing
whitespace. -/
def jsonLoads (s : String) : Option Json :=
  match decodeVal (s.data.length + 1) s.data with
  | some (v, rest) => if (skipWs rest).isEmpty then some v else none
  | none => none

/-! ## FastDeploy client (`fastdeploy_client.py`)

A deployment step is a JSON dict with optional `name`, `state` and
`message` keys; the code reads each with `.get`, so the embedding keeps
them as `Option String`. -/

structure Step where
  name : Option String
  state : Option String
  message : Option String
deriving Repr, DecidableEq

/-- `DeploymentStatus` as returned by `get_deployment_status`: only the
fields the orchestrators read are kept. -/
structure DeploymentStatus where
  finished : Option String
  steps : List Step
deriving Repr, DecidableEq

/-- `DeploymentStatus.is_finished`. -/
def DeploymentStatus.is_finished (d : DeploymentStatus) : Bool :=
  d.finished.isSome

/-- `DeploymentStatus.is_successful`: finished and every step state is
`success` or `skipped`. -/
def DeploymentStatus.is_successful (d : DeploymentStatus) : Bool :=
  d.is_finished &&
    d.steps.all (fun st => st.state = some "success" || st.state = some "skipped")

/-- `DeploymentStatus.failed_step`: the first step with state `failure`. -/
def DeploymentStatus.failed_step (d : DeploymentStatus) : Option Step :=
  d.steps.find? (fun st => st.state = some "failure")

/-- The literal character sequence the result regex must see before the
payload: the marker `ECHOPORT_RESULT:` followed by an opening brace. -/
def resultMarkChars : List Char := "ECHOPORT_RESULT:".data ++ ['{']

/-- Scan for the leftmost match of the regex `ECHOPORT_RESULT:(\x7b.*\x7d)`
(`re.search`), returning capture group 1. At a candidate position the
greedy `.*` runs to the last closing brace before the next newline (`.`
does not match a newline); if the rest of the line has no closing brace
the position fails and scanning resumes one character further right. -/
def findResultMatch : List Char → Option (List Char)
  | [] => none
  | c :: cs =>
    if startsWithChars resultMarkChars (c :: cs) then
      let seg := ((c :: cs).drop resultMarkChars.length).takeWhile (fun ch => ch ≠ '\n')
      let upToLastClose := (seg.reverse.dropWhile (fun ch => ch ≠ '}')).reverse
      if upToLastClose.isEmpty then findResultMatch cs
      else some ('{' :: upToLastClose)
    else findResultMatch cs

/-- The payload substring (`match.group(1)`) extracted from one step
message, if the result regex matches it. -/
def findEchoportPayload (message : String) : Option String :=
  (findResultMatch message.data).map String.mk

/-- The `BackupResult` dataclass. Python stores whatever values the JSON
payload carried, so the embedding keeps raw `Json` values; `success` is
consumed only in boolean positions, through `Json.truthy`. -/
structure BackupResult where
  success : Json
  bucket : Json
  key : Json
  size_bytes : Json
  checksum_sha256 : Json
  file_count : Json
  error : Option Json
deriving Repr

/-- Build a `BackupResult` from a decoded payload object, with the
defaults `parse_echoport_result` passes to `data.get`. -/
def mkBackupResult (kvs : List (String × Json)) : BackupResult :=
  { success := dGetD kvs "success" (.bool false)
    bucket := dGetD kvs "bucket" (.str "")
    key := dGetD kvs "key" (.str "")
    size_bytes := dGetD kvs "size_bytes" (.num 0)
    checksum_sha256 := dGetD kvs "checksum_sha256" (.str "")
    file_count := dGetD kvs "file_count" (.num 0)
    error := dGet kvs "error" }

/-- `FastDeployClient.parse_echoport_result`: walk the steps in order,
skip empty messages, and return the result built from the first message
whose regex match carries a decodable JSON payload; a decode failure
moves on to the next step. A successfully decoded payload always starts
with a brace, hence is an object; the non-object fallthrough below is
unreachable. -/
def parse_echoport_result : List Step → Option BackupResult
  | [] => none
  | st :: rest =>
    let message := st.message.getD ""
    if message = "" then parse_echoport_result rest
    else
      match findEchoportPayload message with
      | none => parse_echoport_result rest
      | some payload =>
        match jsonLoads payload with
        | some (.obj kvs) => some (mkBackupResult kvs)
        | _ => parse_echoport_result rest

/-! ## Data model (`models.py`, migration `0004_restorerun.py`)

String interpolations in engine messages wrap names in single quotes in
the source; the embedded message texts omit the quote marks. The
`RestoreRun` model class is defined by migration 0004. -/

inductive TargetStatus where
  | active | paused | disabled
deriving Repr, DecidableEq

inductive RunStatus where
  | pending | running | success | failed | timeout
deriving Repr, DecidableEq

/-- The database string for a run status. -/
def RunStatus.text : RunStatus → String
  | .pending => "pending"
  | .running => "running"
  | .success => "success"
  | .failed => "failed"
  | .timeout => "timeout"

/-- `BackupRun.is_active`: pending or running. -/
def RunStatus.isActive : RunStatus → Bool
  | .pending => true
  | .running => true
  | _ => false

/-- A status the orchestrators may leave behind on exit. -/
def RunStatus.isTerminal : RunStatus → Bool
  | .success => true
  | .failed => true
  | .timeout => true
  | _ => false

inductive TriggerKind where
  | manual | scheduled | api
deriving Repr, DecidableEq

inductive RestoreTriggerKind where
  | manual | api
deriving Repr, DecidableEq

/-- `BackupTarget`. -/
structure MTarget where
  id : Nat
  name : String
  fastdeployService : String
  dbPath : String
  backupFiles : List String
  schedule : String
  status : TargetStatus
  retentionDays : Nat
  timeoutSeconds : Nat
  storageBucket : String
  serviceName : String
deriving Repr

/-- `BackupRun`. Result columns hold whatever the engine assigned from the
parsed payload, so they are `Json`-valued; rows created by the model
defaults carry `Json.str ""` / `Json.null` as the columns do. -/
structure MBackupRun where
  id : Nat
  targetId : Nat
  status : RunStatus
  trigger : TriggerKind
  triggeredBy : String
  deploymentId : Option Nat
  storageBucket : Json
  storageKey : Json
  sizeBytes : Json
  checksum_sha256 : Json
  fileCount : Json
  errorMessage : String
  logs : String
  startedAt : Int
  finishedAt : Option Int
deriving Repr

/-- `RestoreRun` (from migration 0004). -/
structure MRestoreRun where
  id : Nat
  backupRunId : Nat
  targetId : Nat
  status : RunStatus
  trigger : RestoreTriggerKind
  triggeredBy : String
  deploymentId : Option Nat
  filesRestored : Json
  errorMessage : String
  logs : String
  startedAt : Int
  finishedAt : Option Int
deriving Repr

/-- The run/target tables, for the queries the commands and views run. -/
structure MDb where
  targets : List MTarget
  backupRuns : List MBackupRun
  restoreRuns : List MRestoreRun
deriving Repr

/-! ## Shared engine pieces (`backup_engine.py` / `restore_engine.py`) -/

/-- `_collect_step_logs` (identical in both engines): a header line per
step, followed by the message when non-empty. -/
def _collect_step_logs (steps : List Step) : String :=
  let parts := steps.foldr
    (fun st acc =>
      let header := "[" ++ st.name.getD "unknown" ++ "] (" ++ st.state.getD "unknown" ++ ")"
      let msg := st.message.getD ""
      if msg = "" then header :: acc else header :: msg :: acc)
    []
  String.intercalate "\n" parts

/-- Python `str()` of a decoded JSON value, used when a non-string payload
field is written into a text column. Only the string case is exercised by
any claim; the other cases use a canonical rendering. -/
def Json.display : Json → String
  | .str s => s
  | .bool true => "True"
  | .bool false => "False"
  | .num n => toString n
  | .null => "None"
  | .arr _ => "[...]"
  | .obj _ => "\x7b...\x7d"

/-- Python `a or b` for an optional payload field against a default
message: the default wins when the field is absent or falsy. -/
def pyOr (e : Option Json) (dflt : String) : String :=
  match e with
  | some v => if v.truthy then v.display else dflt
  | none => dflt

/-- One observed response of the poll loop: the deployment vanished
(404), a transient error (retried), a successful poll that is not yet
finished, or a finished deployment status. -/
inductive PollOutcome where
  | notFound
  | transientError
  | notFinished
  | finished (d : DeploymentStatus)
deriving Repr

/-! ## Backup engine (`backup_engine.py`)

`start_backup` is embedded as a pure function from the target, the
optional pre-created run and an environment of external responses to the
pair (returned value or raised error, final state of the run record).
The second component is `none` when no run record exists for the
invocation. The poll-loop budget (`elapsed < timeout` in steps of the
poll interval) is the length of the `polls` list: exhausting it is the
timeout path. -/

inductive BackupErr where
  | backupError (msg : String)
  | concurrentBackup (msg : String)
  | backupTimeout (msg : String)
deriving Repr, DecidableEq

/-- Environment of external effects for one `start_backup` invocation. -/
structure BackupEnv where
  now : Int
  newRunId : Nat
  createConflict : Bool
  startResult : Except String Nat
  polls : List PollOutcome

/-- `_mark_run_failed`. -/
def _mark_run_failed (run : MBackupRun) (msg : String) (now : Int) : MBackupRun :=
  { run with status := .failed, errorMessage := msg, finishedAt := some now }

/-- `_mark_run_timeout` (the message reads the timeout off the target). -/
def _mark_run_timeout (run : MBackupRun) (timeoutSeconds : Nat) (now : Int) : MBackupRun :=
  { run with status := .timeout
             errorMessage := "Backup timed out after " ++ toString timeoutSeconds ++ " seconds"
             finishedAt := some now }

/-- `_handle_deployment_finished` of the backup engine. -/
def handleBackupFinished (run : MBackupRun) (d : DeploymentStatus) (now : Int) : MBackupRun :=
  let run := { run with logs := _collect_step_logs d.steps }
  let run :=
    if d.is_successful then
      match parse_echoport_result d.steps with
      | some result =>
        if result.success.truthy then
          { run with status := .success, storageKey := result.key, sizeBytes := result.size_bytes,
                     checksum_sha256 := result.checksum_sha256, fileCount := result.file_count }
        else
          { run with status := .failed, errorMessage := pyOr result.error "Backup reported failure" }
      | none => { run with status := .success }
    else
      match d.failed_step with
      | some st => { run with status := .failed, errorMessage := st.message.getD "Unknown error" }
      | none => { run with status := .failed, errorMessage := "Deployment failed" }
  { run with finishedAt := some now }

/-- The poll loop of `start_backup`, after the deployment started. -/
def backupPollLoop (target : MTarget) (run : MBackupRun) (now : Int) :
    List PollOutcome → Except BackupErr MBackupRun × MBackupRun
  | [] =>
    let r := _mark_run_timeout run target.timeoutSeconds now
    (.error (.backupTimeout ("Backup timed out after " ++ toString target.timeoutSeconds ++ " seconds")), r)
  | p :: rest =>
    match p with
    | .notFound =>
      let r := _mark_run_failed run "Deployment not found" now
      (.error (.backupError "Deployment disappeared during execution"), r)
    | .transientError => backupPollLoop target run now rest
    | .notFinished => backupPollLoop target run now rest
    | .finished d =>
      let r := handleBackupFinished run d now
      (.ok r, r)

/-- The start-deployment-then-poll phase of `start_backup`, entered once a
run record is in hand. -/
def backupDeploymentPhase (target : MTarget) (run : MBackupRun) (env : BackupEnv) :
    Except BackupErr MBackupRun × MBackupRun :=
  match env.startResult with
  | .error e =>
    let r := _mark_run_failed run e env.now
    (.error (.backupError ("Failed to start backup deployment: " ++ e)), r)
  | .ok deploymentId =>
    let run := { run with deploymentId := some deploymentId, status := .running }
    backupPollLoop target run env.now env.polls

/-- The row `BackupRun.objects.create` inserts. -/
def newBackupRun (target : MTarget) (trigger : TriggerKind) (triggeredBy : String)
    (env : BackupEnv) : MBackupRun :=
  { id := env.newRunId, targetId := target.id, status := .pending, trigger := trigger,
    triggeredBy := triggeredBy, deploymentId := none,
    storageBucket := .str target.storageBucket, storageKey := .str "",
    sizeBytes := .null, checksum_sha256 := .str "", fileCount := .null,
    errorMessage := "", logs := "", startedAt := env.now, finishedAt := none }

/-- `start_backup`. The source interpolates the foreign target name into
the first validation message; the embedded state does not carry it, so
the message names only the expected target. -/
def start_backup (target : MTarget) (trigger : TriggerKind) (triggeredBy : String)
    (existingRun : Option MBackupRun) (env : BackupEnv) :
    Except BackupErr MBackupRun × Option MBackupRun :=
  match existingRun with
  | some er =>
    if er.targetId ≠ target.id then
      (.error (.backupError ("existing_run " ++ toString er.id ++
        " belongs to another target, not " ++ target.name)), some er)
    else if er.status ≠ .pending then
      (.error (.backupError ("existing_run " ++ toString er.id ++ " has status " ++
        er.status.text ++ ", expected pending")), some er)
    else
      let (out, r) := backupDeploymentPhase target er env
      (out, some r)
  | none =>
    if env.createConflict then
      (.error (.concurrentBackup ("A backup is already running for target " ++ target.name)), none)
    else
      let (out, r) := backupDeploymentPhase target (newBackupRun target trigger triggeredBy env) env
      (out, some r)

/-- Stable insertion into a sorted list, for embedding `ORDER BY`
results. -/
def insertLe (le : α → α → Bool) (a : α) : List α → List α
  | [] => [a]
  | b :: l => if le a b then a :: b :: l else b :: insertLe le a l

/-- Stable sort by a boolean comparator: the ordering a Django
`order_by`/Python `sort` produces (both are stable). -/
def sortLe (le : α → α → Bool) : List α → List α
  | [] => []
  | a :: l => insertLe le a (sortLe le l)

/-- `get_active_run`: the pending/running backup of a target, if any.
The queryset inherits the model ordering `-started_at`. -/
def get_active_run (db : MDb) (target : MTarget) : Option MBackupRun :=
  (sortLe (fun a b => decide (b.startedAt ≤ a.startedAt))
    (db.backupRuns.filter (fun r => r.targetId == target.id && r.status.isActive))).head?

/-! ## Restore engine (`restore_engine.py`)

Embedded like `start_backup`. The row lock, the concurrent-backup lookup
inside the critical section and the uniqueness-constraint conflict are
external responses carried by `RestoreEnv`. -/

inductive RestoreErr where
  | restoreError (msg : String)
  | concurrentRestore (msg : String)
  | concurrentBackupErr (msg : String)
  | restoreTimeout (msg : String)
  | missingChecksum (msg : String)
deriving Repr, DecidableEq

/-- `str(e)` of a restore-engine exception. -/
def RestoreErr.text : RestoreErr → String
  | .restoreError m => m
  | .concurrentRestore m => m
  | .concurrentBackupErr m => m
  | .restoreTimeout m => m
  | .missingChecksum m => m

/-- Environment of external effects for one `start_restore` invocation.
`hasSelectForUpdate` is `connection.features.has_select_for_update`;
`lockOk` is whether `select_for_update(nowait=True)` acquires the target
row lock; `activeBackupId` is what `get_active_run` finds inside the
critical section. -/
structure RestoreEnv where
  now : Int
  newRunId : Nat
  hasSelectForUpdate : Bool
  lockOk : Bool
  lockErrText : String
  activeBackupId : Option Nat
  createConflict : Bool
  startResult : Except String Nat
  polls : List PollOutcome

/-- `_mark_run_failed` of the restore engine. -/
def markRestoreFailed (run : MRestoreRun) (msg : String) (now : Int) : MRestoreRun :=
  { run with status := .failed, errorMessage := msg, finishedAt := some now }

/-- `_mark_run_timeout` of the restore engine. -/
def markRestoreTimeout (run : MRestoreRun) (timeoutSeconds : Nat) (now : Int) : MRestoreRun :=
  { run with status := .timeout
             errorMessage := "Restore timed out after " ++ toString timeoutSeconds ++ " seconds"
             finishedAt := some now }

/-- `_fail_existing_run_and_raise`: mark the pre-supplied run (when there
is one) failed with the exception text, then propagate the exception. -/
def failExisting (existingRun : Option MRestoreRun) (e : RestoreErr) (now : Int) :
    Except RestoreErr MRestoreRun × Option MRestoreRun :=
  (.error e, existingRun.map (fun er => markRestoreFailed er e.text now))

/-- `_handle_deployment_finished` of the restore engine. -/
def handleRestoreFinished (run : MRestoreRun) (d : DeploymentStatus) (now : Int) : MRestoreRun :=
  let run := { run with logs := _collect_step_logs d.steps }
  let run :=
    if d.is_successful then
      match parse_echoport_result d.steps with
      | some result =>
        if result.success.truthy then
          { run with status := .success, filesRestored := result.file_count }
        else
          { run with status := .failed, errorMessage := pyOr result.error "Restore reported failure" }
      | none =>
        { run with status := .failed,
                   errorMessage := "Restore completed but no result was reported - status unknown" }
    else
      match d.failed_step with
      | some st => { run with status := .failed, errorMessage := st.message.getD "Unknown error" }
      | none => { run with status := .failed, errorMessage := "Deployment failed" }
  { run with finishedAt := some now }

/-- The poll loop of `start_restore`. -/
def restorePollLoop (target : MTarget) (run : MRestoreRun) (now : Int) :
    List PollOutcome → Except RestoreErr MRestoreRun × MRestoreRun
  | [] =>
    let r := markRestoreTimeout run target.timeoutSeconds now
    (.error (.restoreTimeout ("Restore timed out after " ++ toString target.timeoutSeconds ++ " seconds")), r)
  | p :: rest =>
    match p with
    | .notFound =>
      let r := markRestoreFailed run "Deployment not found" now
      (.error (.restoreError "Deployment disappeared during execution"), r)
    | .transientError => restorePollLoop target run now rest
    | .notFinished => restorePollLoop target run now rest
    | .finished d =>
      let r := handleRestoreFinished run d now
      (.ok r, r)

/-- The start-deployment-then-poll phase of `start_restore`. -/
def restoreDeploymentPhase (target : MTarget) (run : MRestoreRun) (env : RestoreEnv) :
    Except RestoreErr MRestoreRun × MRestoreRun :=
  match env.startResult with
  | .error e =>
    let r := markRestoreFailed run e env.now
    (.error (.restoreError ("Failed to start restore deployment: " ++ e)), r)
  | .ok deploymentId =>
    let run := { run with deploymentId := some deploymentId, status := .running }
    restorePollLoop target run env.now env.polls

/-- The row `RestoreRun.objects.create` inserts. -/
def newRestoreRun (backupRun : MBackupRun) (target : MTarget) (triggeredBy : String)
    (env : RestoreEnv) : MRestoreRun :=
  { id := env.newRunId, backupRunId := backupRun.id, targetId := target.id,
    status := .pending, trigger := .manual, triggeredBy := triggeredBy,
    deploymentId := none, filesRestored := .null,
    errorMessage := "", logs := "", startedAt := env.now, finishedAt := none }

/-- `_get_or_create_run_with_lock` followed by the deployment phase: the
concurrent-backup check, the existing-run validation or the run insert,
all inside the critical section, then the remote job. -/
def restoreCritical (backupRun : MBackupRun) (target : MTarget) (triggeredBy : String)
    (existingRun : Option MRestoreRun) (env : RestoreEnv) :
    Except RestoreErr MRestoreRun × Option MRestoreRun :=
  match env.activeBackupId with
  | some bid =>
    failExisting existingRun
      (.concurrentBackupErr ("Cannot restore while backup " ++ toString bid ++
        " is running for target " ++ target.name)) env.now
  | none =>
    match existingRun with
    | some er =>
      if er.backupRunId ≠ backupRun.id then
        failExisting (some er)
          (.restoreError ("existing_run " ++ toString er.id ++ " is for backup " ++
            toString er.backupRunId ++ ", not " ++ toString backupRun.id)) env.now
      else if er.targetId ≠ target.id then
        failExisting (some er)
          (.restoreError ("existing_run " ++ toString er.id ++ " target mismatch: expected " ++
            target.name ++ ", got target_id " ++ toString er.targetId)) env.now
      else if er.status ≠ .pending then
        failExisting (some er)
          (.restoreError ("existing_run " ++ toString er.id ++ " has status " ++
            er.status.text ++ ", expected pending")) env.now
      else
        let (out, r) := restoreDeploymentPhase target er env
        (out, some r)
    | none =>
      if env.createConflict then
        (.error (.concurrentRestore ("A restore is already running for target " ++ target.name)), none)
      else
        let (out, r) := restoreDeploymentPhase target (newRestoreRun backupRun target triggeredBy env) env
        (out, some r)

/-- `start_restore`. -/
def start_restore (backupRun : MBackupRun) (target : MTarget) (triggeredBy : String)
    (existingRun : Option MRestoreRun) (env : RestoreEnv) :
    Except RestoreErr MRestoreRun × Option MRestoreRun :=
  if backupRun.status ≠ .success then
    failExisting existingRun
      (.restoreError ("Cannot restore from backup run " ++ toString backupRun.id ++
        " with status " ++ backupRun.status.text)) env.now
  else if !backupRun.checksum_sha256.truthy then
    failExisting existingRun
      (.missingChecksum ("Cannot restore from backup run " ++ toString backupRun.id ++
        ": missing checksum for integrity verification")) env.now
  else if env.hasSelectForUpdate && !env.lockOk then
    failExisting existingRun
      (.concurrentBackupErr ("Cannot acquire lock on target " ++ target.name ++
        " - another operation may be in progress: " ++ env.lockErrText)) env.now
  else
    restoreCritical backupRun target triggeredBy existingRun env

/-! ## MinIO client (`minio_client.py`) -/

/-- Does the character sequence contain `needle` as a contiguous
subsequence? -/
def charsHasSeq (needle : List Char) : List Char → Bool
  | [] => needle.isEmpty
  | c :: cs => startsWithChars needle (c :: cs) || charsHasSeq needle cs

/-- Does `hay` contain `needle` as a substring? (`needle in hay` for the
non-empty needles the source uses.) -/
def strHas (hay needle : String) : Bool :=
  charsHasSeq needle.data hay.data

/-- Lowercase a string character by character (`str.lower()` for the
ASCII messages involved). -/
def strLower (s : String) : String :=
  String.mk (s.data.map Char.toLower)

/-- The whitespace set of Python `str.strip()`. -/
def isPyWs (c : Char) : Bool :=
  c = ' ' || c = '\t' || c = '\n' || c = '\r' || c = '\x0b' || c = '\x0c'

/-- Split a character sequence at newlines. -/
def splitNl : List Char → List (List Char)
  | [] => [[]]
  | c :: cs =>
    if c = '\n' then [] :: splitNl cs
    else
      match splitNl cs with
      | l :: ls => (c :: l) :: ls
      | [] => [[c]]

/-- Split on newlines after stripping, as `output.strip().split("\n")`. -/
def outputLines (output : String) : List String :=
  let stripped := ((output.data.dropWhile isPyWs).reverse.dropWhile isPyWs).reverse
  (splitNl stripped).map String.mk

/-- One line of `mc --json` output, examined as in
`_is_object_not_found_error`: decode the line, require a dict with
status `error`, navigate `error.cause.error` with `.get(..., dict())`
defaults (a non-dict on the way is the `AttributeError` branch, which
skips the line), then test the S3 code and the message fallback. -/
def lineIsObjectNotFound (line : String) : Bool :=
  if line = "" then false
  else
    match jsonLoads line with
    | some (.obj kvs) =>
      let statusIsError :=
        match dGet kvs "status" with
        | some (.str st) => st == "error"
        | _ => false
      if statusIsError then
        match (dGet kvs "error").getD (.obj []) with
        | .obj ekvs =>
          match (dGet ekvs "cause").getD (.obj []) with
          | .obj ckvs =>
            match (dGet ckvs "error").getD (.obj []) with
            | .obj cekvs =>
              let codeIsNoSuchKey :=
                match dGet cekvs "Code" with
                | some (.str c) => c == "NoSuchKey"
                | _ => false
              if codeIsNoSuchKey then true
              else
                match dGet ekvs "message" with
                | some (.str m) => strHas (strLower m) "object does not exist"
                | _ => false
            | _ => false
          | _ => false
        | _ => false
      else false
    | _ => false

/-- `_is_object_not_found_error` over a whole output stream. -/
def _is_object_not_found_error (output : String) : Bool :=
  (outputLines output).any lineIsObjectNotFound

/-- Outcome of running the `mc rm --json` subprocess. -/
inductive McOutcome where
  | completed (returncode : Int) (stdout : String) (stderr : String)
  | timedOut
  | toolMissing
  | otherError
deriving Repr

/-- `delete_object`: true on exit code 0, true when either stream shows
the object was already absent, false otherwise (including subprocess
timeout, missing tool and unexpected errors). The object path built from
bucket and key only feeds the command line and the log text. -/
def delete_object (mc : McOutcome) : Bool :=
  match mc with
  | .completed rc stdout stderr =>
    if rc = 0 then true
    else _is_object_not_found_error stdout || _is_object_not_found_error stderr
  | _ => false

/-! ## Retention cleanup (`cleanup_old_backups.py`) -/

/-- `get_backups_to_delete`: the target's success runs finished before
`now - retention_days` with no restore run referencing them, oldest
first. -/
def get_backups_to_delete (db : MDb) (target : MTarget) (now : Int) : List MBackupRun :=
  let cutoff := now - (target.retentionDays : Int) * 86400
  let backups := db.backupRuns.filter (fun r =>
    r.targetId == target.id && r.status == RunStatus.success &&
    (match r.finishedAt with
     | some f => decide (f < cutoff)
     | none => false) &&
    !(db.restoreRuns.any (fun rr => rr.backupRunId == r.id)))
  sortLe (fun a b => decide (a.finishedAt.getD 0 ≤ b.finishedAt.getD 0)) backups

inductive DeleteResult where
  | deleted | skipped | error
deriving Repr, DecidableEq

/-- What one `_delete_backup` call did: its reported result, whether the
database row ended up deleted, and whether the storage deletion was
attempted at all. -/
structure DeleteAttempt where
  result : DeleteResult
  dbDeleted : Bool
  storageAttempted : Bool
deriving Repr, DecidableEq

/-- Environment of external effects for one `_delete_backup` call:
row-locking support, the lock acquisition, the two in-transaction
re-checks, the `mc` subprocess outcome and whether the row delete
statement itself succeeds (a `PROTECT` violation rolls the transaction
back). -/
structure CleanupEnv where
  hasSelectForUpdate : Bool
  lockOk : Bool
  runStillExists : Bool
  restoreExistsRecheck : Bool
  mc : McOutcome
  dbDeleteOk : Bool

/-- `_delete_backup_simple`: the no-row-locking fallback. Same re-checks,
storage first, database row only after a storage success. -/
def _delete_backup_simple (env : CleanupEnv) : DeleteAttempt :=
  if !env.runStillExists then ⟨.skipped, false, false⟩
  else if env.restoreExistsRecheck then ⟨.skipped, false, false⟩
  else if !(delete_object env.mc) then ⟨.error, false, true⟩
  else if !env.dbDeleteOk then ⟨.error, false, true⟩
  else ⟨.deleted, true, true⟩

/-- `_delete_backup`: missing storage info is a reported error with no
deletion; with row locking, lock contention and the re-checks skip the
item; the storage object is deleted before the database row, and a
storage failure leaves the row in place. -/
def _delete_backup (backup : MBackupRun) (env : CleanupEnv) : DeleteAttempt :=
  if !backup.storageKey.truthy || !backup.storageBucket.truthy then ⟨.error, false, false⟩
  else if !env.hasSelectForUpdate then _delete_backup_simple env
  else if !env.lockOk then ⟨.skipped, false, false⟩
  else if !env.runStillExists then ⟨.skipped, false, false⟩
  else if env.restoreExistsRecheck then ⟨.skipped, false, false⟩
  else if !(delete_object env.mc) then ⟨.error, false, true⟩
  else if !env.dbDeleteOk then ⟨.error, false, true⟩
  else ⟨.deleted, true, true⟩

/-! ## Scheduler (`run_scheduled_backups.py`) -/

/-- `get_last_scheduled_run`: newest scheduled-trigger run of a target,
any status. -/
def get_last_scheduled_run (db : MDb) (target : MTarget) : Option MBackupRun :=
  (sortLe (fun a b => decide (b.startedAt ≤ a.startedAt))
    (db.backupRuns.filter (fun r =>
      r.targetId == target.id && r.trigger == TriggerKind.scheduled))).head?

/-- Outcome of `croniter(schedule, now).get_prev(...)`. Cron-expression
evaluation is the external croniter library (excluded from the core by
the spec), so it enters the embedding as an oracle of this type: the
previous firing time, or one of the exceptions the command catches. -/
inductive CronPrevResult where
  | ok (t : Int)
  | badExpr
deriving Repr, DecidableEq

/-- `_is_due_for_backup`: empty schedules and invalid cron expressions
are never due; otherwise due when there is no prior scheduled run, or
the last one started before the most recent firing time. -/
def _is_due_for_backup (cronPrev : String → Int → CronPrevResult) (db : MDb)
    (target : MTarget) (now : Int) : Bool :=
  if target.schedule = "" then false
  else
    match cronPrev target.schedule now with
    | .badExpr => false
    | .ok lastScheduledTime =>
      match get_last_scheduled_run db target with
      | none => true
      | some lastRun => decide (lastRun.startedAt < lastScheduledTime)

inductive TriggerOutcome where
  | success | skipped | error
deriving Repr, DecidableEq

/-- `_trigger_backup`: skip when an active run exists (without invoking
`start_backup`), otherwise run `start_backup` and fold its outcome; the
second component records whether `start_backup` was invoked. -/
def _trigger_backup (db : MDb) (target : MTarget) (env : BackupEnv) :
    TriggerOutcome × Bool :=
  if (get_active_run db target).isSome then (.skipped, false)
  else
    match start_backup target .scheduled "scheduler" none env with
    | (.ok run, _) => (if run.status = .success then .success else .error, true)
    | (.error (.concurrentBackup _), _) => (.skipped, true)
    | (.error _, _) => (.error, true)

/-! ## Health endpoint (`views.py`, `health_status`) -/

/-- One entry of the `recent_failures` list: the endpoint exposes the
target name, the run start timestamp and the run status, and nothing
else (in particular no error text). The source renders the timestamp in
ISO form, whose ordering agrees with the numeric time. -/
structure FailureEntry where
  target : String
  timestamp : Int
  status : RunStatus
deriving Repr, DecidableEq

/-- Does a backup run qualify for the recent-failures list of a target:
failed or timed out, started within the last 7 days. -/
def isRecentFailure (target : MTarget) (now : Int) (r : MBackupRun) : Bool :=
  r.targetId == target.id &&
  (r.status == RunStatus.failed || r.status == RunStatus.timeout) &&
  decide (now - 7 * 86400 ≤ r.startedAt)

/-- The per-target query: qualifying runs, newest first, capped at 5
(`order_by("-started_at")[:5]`). -/
def targetRecentFailures (db : MDb) (target : MTarget) (now : Int) : List MBackupRun :=
  (sortLe (fun a b => decide (b.startedAt ≤ a.startedAt))
    (db.backupRuns.filter (isRecentFailure target now))).take 5

/-- The active targets the endpoint iterates, in the model ordering by
name. -/
def healthTargets (db : MDb) : List MTarget :=
  sortLe (fun a b => decide (a.name ≤ b.name))
    (db.targets.filter (fun t => t.status == TargetStatus.active))

/-- All entries collected into `recent_failures` before the final sort
and cap. -/
def healthFailuresCollected (db : MDb) (now : Int) : List FailureEntry :=
  (healthTargets db).flatMap (fun t =>
    (targetRecentFailures db t now).map (fun r =>
      { target := t.name, timestamp := r.startedAt, status := r.status }))

/-- The `recent_failures` value of the health endpoint response: the
collected entries sorted newest first and limited to 10. -/
def health_recent_failures (db : MDb) (now : Int) : List FailureEntry :=
  (sortLe (fun a b => decide (b.timestamp ≤ a.timestamp))
    (healthFailuresCollected db now)).take 10

/-! ## Interleaving model of the two orchestrators

For the cross-entity concurrency claim the database-visible effects of
concurrently executing `start_backup` / `start_restore` invocations are
a transition system over the run tables. On a storage engine with
row-level locking, `start_restore` holds an exclusive target-row lock
around its concurrent-backup check and run insert, and a `BackupRun`
insert (which takes a share lock on the referenced target row) cannot
commit inside that window, so the whole critical section is one atomic
step. `start_backup` performs no such critical section: its insert is
guarded only by the per-kind uniqueness constraint
`unique_active_backup_per_target`, and it reads no restore state. Status
writes touch one already-active row at a time. -/

structure SysState where
  backups : List MBackupRun
  restores : List MRestoreRun

/-- Is a pending/running backup of target `t` in the table? -/
def hasActiveBackupFor (s : SysState) (t : Nat) : Bool :=
  s.backups.any (fun b => b.targetId == t && b.status.isActive)

/-- Is a pending/running restore of target `t` in the table? -/
def hasActiveRestoreFor (s : SysState) (t : Nat) : Bool :=
  s.restores.any (fun r => r.targetId == t && r.status.isActive)

/-- Does the table hold a successful source backup for this restore?
(`start_restore` requires `backup_run.status == success` before entering
its critical section.) -/
def hasSuccessSourceFor (s : SysState) (run : MRestoreRun) : Bool :=
  s.backups.any (fun b =>
    b.id == run.backupRunId && b.targetId == run.targetId &&
    b.status == RunStatus.success)

/-- One atomic database effect of an orchestrator invocation.
`backupCreate` is `BackupRun.objects.create` in `start_backup`: it
commits exactly when no active backup of the target exists (otherwise
the uniqueness constraint raises `IntegrityError`), and it checks
nothing about restores. `restoreCreate` is the restore critical section:
concurrent-backup check, per-kind constraint and insert, atomically
under the target-row lock. The update steps are the status writes of
either engine on the run they own, which only ever touch a still-active
run. -/
inductive SysStep : SysState → SysState → Prop where
  | backupCreate (s : SysState) (run : MBackupRun) :
      run.status = .pending →
      hasActiveBackupFor s run.targetId = false →
      SysStep s ⟨run :: s.backups, s.restores⟩
  | backupUpdate (s : SysState) (i : Nat) (st : RunStatus) (h : i < s.backups.length) :
      (s.backups.get ⟨i, h⟩).status.isActive = true →
      SysStep s ⟨s.backups.set i { s.backups.get ⟨i, h⟩ with status := st }, s.restores⟩
  | restoreCreate (s : SysState) (run : MRestoreRun) :
      run.status = .pending →
      hasSuccessSourceFor s run = true →
      hasActiveBackupFor s run.targetId = false →
      hasActiveRestoreFor s run.targetId = false →
      SysStep s ⟨s.backups, run :: s.restores⟩
  | restoreUpdate (s : SysState) (i : Nat) (st : RunStatus) (h : i < s.restores.length) :
      (s.restores.get ⟨i, h⟩).status.isActive = true →
      SysStep s ⟨s.backups, s.restores.set i { s.restores.get ⟨i, h⟩ with status := st }⟩

/-- The empty database. -/
def initState : SysState := ⟨[], []⟩

/-- States reachable by interleaving orchestrator effects from an empty
database. -/
def Reachable (s : SysState) : Prop :=
  Relation.ReflTransGen SysStep initState s

/-- Number of active backups of target `t`. -/
def countActiveBackups (s : SysState) (t : Nat) : Nat :=
  s.backups.countP (fun b => b.targetId == t && b.status.isActive)

/-- Number of active restores of target `t`. -/
def countActiveRestores (s : SysState) (t : Nat) : Nat :=
  s.restores.countP (fun r => r.targetId == t && r.status.isActive)

/-! ## Concrete instances used by counterexamples and witnesses -/

/-- A representative configured target. -/
def demoTarget : MTarget :=
  { id := 1, name := "nyxmon", fastdeployService := "nyxmon-backup",
    dbPath := "/srv/nyxmon/db.sqlite", backupFiles := [], schedule := "0 2 * * *",
    status := .active, retentionDays := 30, timeoutSeconds := 600,
    storageBucket := "backups", serviceName := "nyxmon.service" }

/-- A pending backup run of `demoTarget`. -/
def demoPendingBackup : MBackupRun :=
  { id := 9, targetId := 1, status := .pending, trigger := .manual, triggeredBy := "ops",
    deploymentId := none, storageBucket := .str "backups",
    storageKey := .str "nyxmon/2026-01-01T02-00-00.tar.gz", sizeBytes := .num 2048,
    checksum_sha256 := .str "deadbeef", fileCount := .num 3,
    errorMessage := "", logs := "", startedAt := 0, finishedAt := none }

/-- The same run after its status write to `success`. -/
def demoDoneBackup : MBackupRun := { demoPendingBackup with status := .success }

/-- A pending restore of `demoTarget` sourced from run 9. -/
def demoPendingRestore : MRestoreRun :=
  { id := 20, backupRunId := 9, targetId := 1, status := .pending, trigger := .manual,
    triggeredBy := "ops", deploymentId := none, filesRestored := .null,
    errorMessage := "", logs := "", startedAt := 5, finishedAt := none }

/-- A second backup run created while the restore is still pending. -/
def cex1NewBackup : MBackupRun := { demoPendingBackup with id := 10, startedAt := 6 }

/-- The reachable state holding an active backup and an active restore of
target 1 at the same time. -/
def cex1State : SysState := ⟨[cex1NewBackup, demoDoneBackup], [demoPendingRestore]⟩

/-- A finished all-successful deployment status with no result marker in
any step message. -/
def demoNoResultDep : DeploymentStatus :=
  ⟨some "2026-02-01T02:10:00",
   [⟨some "upload", some "success", some "uploaded fine"⟩,
    ⟨some "verify", some "skipped", none⟩]⟩

/-- A backup run mid-flight, as `_handle_deployment_finished` sees it. -/
def demoRunningBackup : MBackupRun := { demoPendingBackup with id := 2, status := .running }

/-- A restore run mid-flight. -/
def demoRunningRestore : MRestoreRun := { demoPendingRestore with id := 21, status := .running }

/-- An environment for `start_backup` whose deployment starts and then
finishes cleanly. -/
def demoBackupEnv : BackupEnv :=
  { now := 100, newRunId := 11, createConflict := false, startResult := .ok 501,
    polls := [.notFinished, .finished demoNoResultDep] }

/-- A pre-supplied `existing_run` that is already running: the input on
which `start_backup` raises without leaving the run terminal. -/
def cex3Run : MBackupRun := { demoPendingBackup with id := 7, status := .running }

/-- An `mc rm --json` error line for an already-absent object. -/
def noSuchKeyLine : String :=
  "\x7b\"status\":\"error\",\"error\":\x7b\"message\":\"Object does not exist.\",\"cause\":\x7b\"error\":\x7b\"Code\":\"NoSuchKey\"\x7d\x7d\x7d\x7d"

/-- A cleanup environment whose storage deletion fails outright. -/
def wit4EnvFail : CleanupEnv :=
  { hasSelectForUpdate := true, lockOk := true, runStillExists := true,
    restoreExistsRecheck := false, mc := .completed 1 "mc: unable to remove object" "",
    dbDeleteOk := true }

/-- A successful backup old enough to fall past a 30-day retention
cutoff at `wit5Now`. -/
def wit5OldRun : MBackupRun :=
  { demoDoneBackup with id := 30, startedAt := 50, finishedAt := some 100 }

/-- Retention witness database. -/
def wit5Db : MDb := { targets := [demoTarget], backupRuns := [wit5OldRun], restoreRuns := [] }

/-- A time one second past the retention cutoff of `wit5OldRun`. -/
def wit5Now : Int := 100 + 30 * 86400 + 1

/-- A failed backup run with an empty checksum: the input on which
`start_restore` raises the wrong-status error, not the missing-checksum
error. -/
def cex6Backup : MBackupRun :=
  { demoPendingBackup with id := 3, status := .failed, checksum_sha256 := .str "" }

/-- A successful backup run with an empty checksum. -/
def wit6Backup : MBackupRun :=
  { demoDoneBackup with id := 4, checksum_sha256 := .str "" }

/-- A pre-supplied pending restore for backup run 4. -/
def wit6Existing : MRestoreRun := { demoPendingRestore with id := 23, backupRunId := 4 }

/-- A restore environment with the lock available and a clean finish. -/
def demoRestoreEnv : RestoreEnv :=
  { now := 50, newRunId := 22, hasSelectForUpdate := true, lockOk := true,
    lockErrText := "could not obtain lock on row", activeBackupId := none,
    createConflict := false, startResult := .ok 600,
    polls := [.finished demoNoResultDep] }

/-- A step message carrying a full result payload. -/
def wit7Message : String :=
  "backup done ECHOPORT_RESULT:\x7b\"success\": true, \"bucket\": \"backups\", \"key\": \"nyxmon/a.tar.gz\", \"size_bytes\": 1234, \"checksum_sha256\": \"deadbeef\", \"file_count\": 3\x7d"

/-- A step without any result marker. -/
def wit7PlainStep : Step := ⟨some "prep", some "success", some "prepared workspace"⟩

/-- The capture-group payload inside `wit7Message`. -/
def wit7Payload : String :=
  "\x7b\"success\": true, \"bucket\": \"backups\", \"key\": \"nyxmon/a.tar.gz\", \"size_bytes\": 1234, \"checksum_sha256\": \"deadbeef\", \"file_count\": 3\x7d"

/-- The step carrying `wit7Message`. -/
def wit7ResultStep : Step := ⟨some "report", some "success", some wit7Message⟩

/-- The payload object decoded from `wit7Message`. -/
def wit7Kvs : List (String × Json) :=
  [("success", .bool true), ("bucket", .str "backups"), ("key", .str "nyxmon/a.tar.gz"),
   ("size_bytes", .num 1234), ("checksum_sha256", .str "deadbeef"), ("file_count", .num 3)]

/-- A croniter oracle whose previous firing time is always 100. -/
def cex8Cron : String → Int → CronPrevResult := fun _ _ => .ok 100

/-- A scheduled-trigger run that started at time 50, before the most
recent firing time 100. -/
def cex8Run : MBackupRun :=
  { demoDoneBackup with id := 40, trigger := .scheduled, startedAt := 50 }

/-- Scheduler counterexample database. -/
def cex8Db : MDb := ⟨[demoTarget], [cex8Run], []⟩

/-- A database in which `demoTarget` has an active (running) backup. -/
def wit8ActiveDb : MDb :=
  ⟨[demoTarget], [{ demoPendingBackup with id := 41, status := .running }], []⟩

/-- Six failed runs of target 1 within the 7-day window. -/
def cex9Runs : List MBackupRun :=
  [{ demoPendingBackup with id := 50, status := .failed, startedAt := 10 },
   { demoPendingBackup with id := 51, status := .failed, startedAt := 20 },
   { demoPendingBackup with id := 52, status := .failed, startedAt := 30 },
   { demoPendingBackup with id := 53, status := .timeout, startedAt := 40 },
   { demoPendingBackup with id := 54, status := .failed, startedAt := 50 },
   { demoPendingBackup with id := 55, status := .failed, startedAt := 60 }]

/-- Health counterexample database: one active target, six qualifying
failures. -/
def cex9Db : MDb := ⟨[demoTarget], cex9Runs, []⟩

/-- A small health database: two qualifying failures, below every cap. -/
def wit9Db : MDb :=
  ⟨[demoTarget],
   [{ demoPendingBackup with id := 56, status := .failed, startedAt := 60 },
    { demoPendingBackup with id := 57, status := .timeout, startedAt := 70 }], []⟩

/-- The second failure of `wit9Db`, as a run record. -/
def wit9Run : MBackupRun := { demoPendingBackup with id := 57, status := .timeout, startedAt := 70 }

/-- A step whose message carries the marker with an empty JSON object. -/
def wit10Step : Step := ⟨some "report", some "success", some "ECHOPORT_RESULT:\x7b\x7d"⟩

/-- A finished all-successful deployment whose only payload is the empty
object. -/
def wit10Dep : DeploymentStatus := ⟨some "2026-02-01T02:10:00", [wit7PlainStep, wit10Step]⟩

/-! ## Helper lemmas -/

theorem mem_insertLe {le : α → α → Bool} {a x : α} {l : List α} :
    x ∈ insertLe le a l ↔ x = a ∨ x ∈ l := by
  induction l with
  | nil => simp [insertLe]
  | cons b t ih =>
    simp only [insertLe]
    split
    · simp
    · simp only [List.mem_cons, ih]
      tauto

theorem mem_sortLe {le : α → α → Bool} {x : α} {l : List α} :
    x ∈ sortLe le l ↔ x ∈ l := by
  induction l with
  | nil => simp [sortLe]
  | cons a t ih => simp [sortLe, mem_insertLe, ih]

theorem length_insertLe {le : α → α → Bool} (a : α) (l : List α) :
    (insertLe le a l).length = l.length + 1 := by
  induction l with
  | nil => rfl
  | cons b t ih =>
    simp only [insertLe]
    split
    · rfl
    · simp [ih]

theorem length_sortLe {le : α → α → Bool} (l : List α) :
    (sortLe le l).length = l.length := by
  induction l with
  | nil => rfl
  | cons a t ih => simp [sortLe, length_insertLe, ih]

theorem pairwise_insertLe {le : α → α → Bool}
    (htot : ∀ a b, le a b = true ∨ le b a = true)
    (htrans : ∀ a b c, le a b = true → le b c = true → le a c = true)
    {a : α} {l : List α} (h : l.Pairwise (fun x y => le x y = true)) :
    (insertLe le a l).Pairwise (fun x y => le x y = true) := by
  induction l with
  | nil => simp [insertLe]
  | cons b t ih =>
    rcases List.pairwise_cons.mp h with ⟨hb, ht⟩
    simp only [insertLe]
    split
    · rename_i hab
      refine List.pairwise_cons.mpr ⟨?_, h⟩
      intro x hx
      rcases List.mem_cons.mp hx with rfl | hxt
      · exact hab
      · exact htrans a b x hab (hb x hxt)
    · rename_i hab
      have hba : le b a = true := by
        rcases htot a b with hh | hh
        · exact absurd hh hab
        · exact hh
      refine List.pairwise_cons.mpr ⟨?_, ih ht⟩
      intro x hx
      rcases mem_insertLe.mp hx with rfl | hxt
      · exact hba
      · exact hb x hxt

theorem pairwise_sortLe {le : α → α → Bool}
    (htot : ∀ a b, le a b = true ∨ le b a = true)
    (htrans : ∀ a b c, le a b = true → le b c = true → le a c = true)
    (l : List α) :
    (sortLe le l).Pairwise (fun x y => le x y = true) := by
  induction l with
  | nil => simp [sortLe]
  | cons a t ih => exact pairwise_insertLe htot htrans ih

theorem parse_none_of_no_match {steps : List Step}
    (h : ∀ st ∈ steps, findEchoportPayload (st.message.getD "") = none) :
    parse_echoport_result steps = none := by
  induction steps with
  | nil => rfl
  | cons st rest ih =>
    have h1 := h st (List.mem_cons_self st rest)
    have ih' := ih (fun s hs => h s (List.mem_cons_of_mem st hs))
    simp only [parse_echoport_result]
    split
    · exact ih'
    · rw [h1]
      exact ih'

theorem parse_first_match {pre post : List Step} {st : Step} {payload : String}
    {kvs : List (String × Json)}
    (hpre : ∀ s ∈ pre, findEchoportPayload (s.message.getD "") = none)
    (hst : findEchoportPayload (st.message.getD "") = some payload)
    (hjson : jsonLoads payload = some (.obj kvs)) :
    parse_echoport_result (pre ++ st :: post) = some (mkBackupResult kvs) := by
  induction pre with
  | nil =>
    have hne : st.message.getD "" ≠ "" := by
      intro he
      rw [he] at hst
      exact Option.noConfusion hst
    simp only [List.nil_append, parse_echoport_result]
    rw [if_neg hne, hst]
    dsimp only
    rw [hjson]
  | cons s t ih =>
    have h1 := hpre s (List.mem_cons_self s t)
    have ih' := ih (fun x hx => hpre x (List.mem_cons_of_mem s hx))
    simp only [List.cons_append, parse_echoport_result]
    split
    · exact ih'
    · rw [h1]
      exact ih'

theorem handleBackupFinished_terminal (run : MBackupRun) (d : DeploymentStatus) (now : Int) :
    (handleBackupFinished run d now).status.isTerminal = true := by
  unfold handleBackupFinished
  dsimp only
  split
  · rcases hp : parse_echoport_result d.steps with _ | result
    · rfl
    · dsimp only
      split <;> rfl
  · rcases hf : d.failed_step with _ | st <;> rfl

theorem backupPollLoop_terminal (target : MTarget) (run : MBackupRun) (now : Int)
    (polls : List PollOutcome) :
    ((backupPollLoop target run now polls).2.status.isTerminal = true) := by
  induction polls generalizing run with
  | nil => rfl
  | cons p rest ih =>
    cases p with
    | notFound => rfl
    | transientError => exact ih run
    | notFinished => exact ih run
    | finished d => exact handleBackupFinished_terminal run d now

theorem backupDeploymentPhase_terminal (target : MTarget) (run : MBackupRun) (env : BackupEnv) :
    ((backupDeploymentPhase target run env).2.status.isTerminal = true) := by
  unfold backupDeploymentPhase
  rcases env.startResult with e | did
  · rfl
  · exact backupPollLoop_terminal target _ env.now env.polls

theorem handleRestoreFinished_terminal (run : MRestoreRun) (d : DeploymentStatus) (now : Int) :
    (handleRestoreFinished run d now).status.isTerminal = true := by
  unfold handleRestoreFinished
  dsimp only
  split
  · rcases hp : parse_echoport_result d.steps with _ | result
    · rfl
    · dsimp only
      split <;> rfl
  · rcases hf : d.failed_step with _ | st <;> rfl

theorem restorePollLoop_terminal (target : MTarget) (run : MRestoreRun) (now : Int)
    (polls : List PollOutcome) :
    ((restorePollLoop target run now polls).2.status.isTerminal = true) := by
  induction polls generalizing run with
  | nil => rfl
  | cons p rest ih =>
    cases p with
    | notFound => rfl
    | transientError => exact ih run
    | notFinished => exact ih run
    | finished d => exact handleRestoreFinished_terminal run d now

theorem restoreDeploymentPhase_terminal (target : MTarget) (run : MRestoreRun) (env : RestoreEnv) :
    ((restoreDeploymentPhase target run env).2.status.isTerminal = true) := by
  unfold restoreDeploymentPhase
  rcases env.startResult with e | did
  · rfl
  · exact restorePollLoop_terminal target _ env.now env.polls

theorem failExisting_all_terminal (er : Option MRestoreRun) (e : RestoreErr) (now : Int) :
    ((failExisting er e now).2.all (fun r => r.status.isTerminal)) = true := by
  cases er <;> rfl

theorem countP_set_le (p : α → Bool) (l : List α) (i : Nat) (a : α) (h : i < l.length)
    (himp : p a = true → p l[i] = true) :
    (l.set i a).countP p ≤ l.countP p := by
  rw [List.countP_set p l i a h]
  by_cases hpa : p a = true
  · have hpl := himp hpa
    have hpos : 0 < l.countP p := List.countP_pos_iff.mpr ⟨l[i], List.getElem_mem h, hpl⟩
    rw [if_pos hpa, if_pos hpl]
    omega
  · rw [if_neg hpa]
    split <;> omega

/-! ## Claim theorems -/

/-- C2: on a finished deployment whose steps are all success or skipped
and whose messages carry no result marker, the backup engine marks the
run success and records no error, while the restore engine marks the run
failed with the status-unknown message. -/
theorem claim2_no_result_policy (bRun : MBackupRun) (rRun : MRestoreRun)
    (d : DeploymentStatus) (now : Int)
    (hfin : d.finished.isSome = true)
    (hsteps : ∀ st ∈ d.steps, st.state = some "success" ∨ st.state = some "skipped")
    (hnores : ∀ st ∈ d.steps, findEchoportPayload (st.message.getD "") = none) :
    (handleBackupFinished bRun d now).status = .success
    ∧ (handleBackupFinished bRun d now).errorMessage = bRun.errorMessage
    ∧ (handleRestoreFinished rRun d now).status = .failed
    ∧ (handleRestoreFinished rRun d now).errorMessage =
        "Restore completed but no result was reported - status unknown" := by
  have hsucc : d.is_successful = true := by
    simp only [DeploymentStatus.is_successful, DeploymentStatus.is_finished, hfin,
      Bool.true_and, List.all_eq_true]
    intro st hst
    rcases hsteps st hst with h | h <;> simp [h]
  have hparse := parse_none_of_no_match hnores
  refine ⟨?_, ?_, ?_, ?_⟩ <;>
    simp [handleBackupFinished, handleRestoreFinished, hsucc, hparse]

/-- Witness for C2 at a concrete finished deployment with no marker in
any message. -/
theorem claim2_no_result_policy_witness :
    (handleBackupFinished demoRunningBackup demoNoResultDep 100).status = .success
    ∧ (handleRestoreFinished demoRunningRestore demoNoResultDep 100).status = .failed :=
  ⟨(claim2_no_result_policy demoRunningBackup demoRunningRestore demoNoResultDep 100
      (by rfl) (by decide) (by decide)).1,
   (claim2_no_result_policy demoRunningBackup demoRunningRestore demoNoResultDep 100
      (by rfl) (by decide) (by decide)).2.2.1⟩

/-- C7: `parse_echoport_result` scans the step messages in order; it
returns the structured result built from the first message whose regex
match carries a decodable JSON payload, and returns nothing when no
message matches. -/
theorem claim7_result_extraction :
    (∀ (pre post : List Step) (st : Step) (payload : String) (kvs : List (String × Json)),
      (∀ s ∈ pre, findEchoportPayload (s.message.getD "") = none) →
      findEchoportPayload (st.message.getD "") = some payload →
      jsonLoads payload = some (.obj kvs) →
      parse_echoport_result (pre ++ st :: post) = some (mkBackupResult kvs))
    ∧ (∀ steps : List Step,
      (∀ s ∈ steps, findEchoportPayload (s.message.getD "") = none) →
      parse_echoport_result steps = none) :=
  ⟨fun _ _ _ _ _ hpre hst hjson => parse_first_match hpre hst hjson,
   fun _ h => parse_none_of_no_match h⟩

/-- Witness for C7 at concrete steps: a two-step list whose second step
carries a full payload, and a single step with no marker. -/
theorem claim7_result_extraction_witness :
    parse_echoport_result [wit7PlainStep, wit7ResultStep] = some (mkBackupResult wit7Kvs)
    ∧ parse_echoport_result [wit7PlainStep] = none :=
  ⟨claim7_result_extraction.1 [wit7PlainStep] [] wit7ResultStep wit7Payload wit7Kvs
      (by intro s hs; fin_cases hs <;> rfl) (by rfl) (by rfl),
   claim7_result_extraction.2 [wit7PlainStep] (by intro s hs; fin_cases hs <;> rfl)⟩

/-- C10: a payload that decodes to an object without a `success` key
yields a result whose `success` defaults to false, so a finished
all-successful deployment carrying such a payload is marked failed with
the payload error or the generic failure message — not success, not
"no result found". -/
theorem claim10_default_success_false (pre post : List Step) (st : Step) (payload : String)
    (kvs : List (String × Json)) (run : MBackupRun) (d : DeploymentStatus) (now : Int)
    (hpre : ∀ s ∈ pre, findEchoportPayload (s.message.getD "") = none)
    (hst : findEchoportPayload (st.message.getD "") = some payload)
    (hjson : jsonLoads payload = some (.obj kvs))
    (hnosucc : dGet kvs "success" = none)
    (hsteps : d.steps = pre ++ st :: post)
    (hsucc : d.is_successful = true) :
    parse_echoport_result d.steps = some (mkBackupResult kvs)
    ∧ (mkBackupResult kvs).success.truthy = false
    ∧ (handleBackupFinished run d now).status = .failed
    ∧ (handleBackupFinished run d now).errorMessage =
        pyOr (dGet kvs "error") "Backup reported failure" := by
  have hparse : parse_echoport_result d.steps = some (mkBackupResult kvs) := by
    rw [hsteps]
    exact parse_first_match hpre hst hjson
  have htruthy : (mkBackupResult kvs).success.truthy = false := by
    simp [mkBackupResult, dGetD, hnosucc, Json.truthy]
  have herr : (mkBackupResult kvs).error = dGet kvs "error" := rfl
  refine ⟨hparse, htruthy, ?_, ?_⟩ <;>
    simp [handleBackupFinished, hsucc, hparse, htruthy, herr]

/-- Witness for C10: the concrete deployment carrying the empty-object
payload is marked failed with the generic message. -/
theorem claim10_default_success_false_witness :
    (handleBackupFinished demoRunningBackup wit10Dep 100).status = .failed
    ∧ (handleBackupFinished demoRunningBackup wit10Dep 100).errorMessage =
        "Backup reported failure"
    ∧ parse_echoport_result wit10Dep.steps = some (mkBackupResult []) := by
  have h := claim10_default_success_false [wit7PlainStep] [] wit10Step "\x7b\x7d" []
    demoRunningBackup wit10Dep 100
    (by intro s hs; fin_cases hs <;> rfl) (by rfl) (by rfl) (by rfl) (by rfl) (by rfl)
  exact ⟨h.2.2.1, h.2.2.2, h.1⟩

/-- C6 counterexample: on a backup run whose checksum is empty but whose
status is `failed`, `start_restore` raises the wrong-status
`RestoreError`, not the missing-checksum error, so the claim as stated
(quantified over every empty-checksum backup run) fails. -/
theorem claim6_missing_checksum_counterexample :
    (start_restore cex6Backup demoTarget "ops" none demoRestoreEnv).1 =
      .error (.restoreError "Cannot restore from backup run 3 with status failed")
    ∧ (start_restore cex6Backup demoTarget "ops" none demoRestoreEnv).2 = none :=
  ⟨rfl, rfl⟩

/-- C6 (amended to backups with status success): on a successful backup
run with an empty (falsy) checksum, `start_restore` raises the
missing-checksum error, creates no restore run, and marks a pre-supplied
run failed with the error text. -/
theorem claim6_missing_checksum (backupRun : MBackupRun) (target : MTarget) (tb : String)
    (er : Option MRestoreRun) (env : RestoreEnv)
    (hstat : backupRun.status = .success)
    (hck : backupRun.checksum_sha256.truthy = false) :
    (start_restore backupRun target tb er env).1 =
      .error (.missingChecksum ("Cannot restore from backup run " ++ toString backupRun.id ++
        ": missing checksum for integrity verification"))
    ∧ (start_restore backupRun target tb er env).2 =
      er.map (fun e => markRestoreFailed e
        ("Cannot restore from backup run " ++ toString backupRun.id ++
          ": missing checksum for integrity verification") env.now) := by
  have h1 : ¬(backupRun.status ≠ RunStatus.success) := by simp [hstat]
  unfold start_restore
  rw [if_neg h1, if_pos (by simp [hck])]
  exact ⟨rfl, rfl⟩

/-- Witness for C6 at a concrete successful empty-checksum backup with a
pre-supplied pending restore run. -/
theorem claim6_missing_checksum_witness :
    (start_restore wit6Backup demoTarget "ops" (some wit6Existing) demoRestoreEnv).1 =
      .error (.missingChecksum
        "Cannot restore from backup run 4: missing checksum for integrity verification")
    ∧ (start_restore wit6Backup demoTarget "ops" (some wit6Existing) demoRestoreEnv).2 =
      some (markRestoreFailed wit6Existing
        "Cannot restore from backup run 4: missing checksum for integrity verification" 50) := by
  have h := claim6_missing_checksum wit6Backup demoTarget "ops" (some wit6Existing)
    demoRestoreEnv (by rfl) (by rfl)
  exact ⟨h.1, h.2⟩

/-- C4: in both deletion paths the database row is deleted only after
`delete_object` returned success; a storage failure leaves the row and
reports the item as an error; and an output stream showing the object
was already absent makes `delete_object` return success. -/
theorem claim4_delete_order (backup : MBackupRun) (env : CleanupEnv) :
    ((_delete_backup backup env).dbDeleted = true →
      (_delete_backup backup env).storageAttempted = true ∧ delete_object env.mc = true)
    ∧ ((_delete_backup backup env).storageAttempted = true → delete_object env.mc = false →
      (_delete_backup backup env).dbDeleted = false
      ∧ (_delete_backup backup env).result = .error)
    ∧ (∀ (rc : Int) (o e : String), _is_object_not_found_error o = true →
      delete_object (.completed rc o e) = true) := by
  refine ⟨?_, ?_, ?_⟩
  · unfold _delete_backup _delete_backup_simple
    split_ifs <;> simp_all
  · unfold _delete_backup _delete_backup_simple
    split_ifs <;> simp_all
  · intro rc o e h
    unfold delete_object
    dsimp only
    split_ifs with hrc
    · rfl
    · simp [h]

/-- Witness for C4: a failing `mc` invocation leaves the row and reports
an error, and a NoSuchKey error line counts as a successful deletion. -/
theorem claim4_delete_order_witness :
    ((_delete_backup demoDoneBackup wit4EnvFail).dbDeleted = false
      ∧ (_delete_backup demoDoneBackup wit4EnvFail).result = .error)
    ∧ delete_object (.completed 1 noSuchKeyLine "") = true :=
  ⟨(claim4_delete_order demoDoneBackup wit4EnvFail).2.1 (by rfl) (by rfl),
   (claim4_delete_order demoDoneBackup wit4EnvFail).2.2 1 noSuchKeyLine "" (by rfl)⟩

/-- C3 counterexample: `start_backup` handed an `existing_run` that is
already running raises the validation error without touching the run, so
the run record of the invocation is left non-terminal (still running). -/
theorem claim3_terminal_state_counterexample :
    (start_backup demoTarget .manual "ops" (some cex3Run) demoBackupEnv).1 =
      .error (.backupError "existing_run 7 has status running, expected pending")
    ∧ (start_backup demoTarget .manual "ops" (some cex3Run) demoBackupEnv).2 = some cex3Run
    ∧ cex3Run.status.isTerminal = false :=
  ⟨rfl, rfl, rfl⟩

/-- C3 (amended to exclude the `start_backup` existing-run validation
failures): whenever `start_backup` is given no existing run, or one that
belongs to the target and is pending, every run record it leaves behind
is terminal; `start_restore` leaves a terminal run record on every path,
with no side condition. -/
theorem claim3_terminal_state :
    (∀ (target : MTarget) (trigger : TriggerKind) (tb : String)
       (er : Option MBackupRun) (env : BackupEnv),
      (∀ e, er = some e → e.targetId = target.id ∧ e.status = .pending) →
      ((start_backup target trigger tb er env).2.all (fun r => r.status.isTerminal)) = true)
    ∧ (∀ (backupRun : MBackupRun) (target : MTarget) (tb : String)
       (er : Option MRestoreRun) (env : RestoreEnv),
      ((start_restore backupRun target tb er env).2.all (fun r => r.status.isTerminal)) = true) := by
  constructor
  · intro target trigger tb er env hval
    cases er with
    | none =>
      unfold start_backup
      dsimp only
      split
      · rfl
      · rcases hph : backupDeploymentPhase target (newBackupRun target trigger tb env) env
          with ⟨out, r⟩
        have ht := backupDeploymentPhase_terminal target (newBackupRun target trigger tb env) env
        rw [hph] at ht
        simp [hph, Option.all, ht]
    | some e =>
      obtain ⟨h1, h2⟩ := hval e rfl
      unfold start_backup
      dsimp only
      rw [if_neg (by simp [h1]), if_neg (by simp [h2])]
      rcases hph : backupDeploymentPhase target e env with ⟨out, r⟩
      have ht := backupDeploymentPhase_terminal target e env
      rw [hph] at ht
      simp [hph, Option.all, ht]
  · intro backupRun target tb er env
    unfold start_restore
    split
    · exact failExisting_all_terminal _ _ _
    · split
      · exact failExisting_all_terminal _ _ _
      · split
        · exact failExisting_all_terminal _ _ _
        · unfold restoreCritical
          cases env.activeBackupId with
          | some bid => exact failExisting_all_terminal _ _ _
          | none =>
            cases er with
            | some e =>
              dsimp only
              split
              · exact failExisting_all_terminal _ _ _
              · split
                · exact failExisting_all_terminal _ _ _
                · split
                  · exact failExisting_all_terminal _ _ _
                  · rcases hph : restoreDeploymentPhase target e env with ⟨out, r⟩
                    have ht := restoreDeploymentPhase_terminal target e env
                    rw [hph] at ht
                    simp [hph, Option.all, ht]
            | none =>
              dsimp only
              split
              · rfl
              · rcases hph : restoreDeploymentPhase target
                  (newRestoreRun backupRun target tb env) env with ⟨out, r⟩
                have ht := restoreDeploymentPhase_terminal target
                  (newRestoreRun backupRun target tb env) env
                rw [hph] at ht
                simp [hph, Option.all, ht]

/-- Witness for C3 at a concrete clean invocation of each orchestrator. -/
theorem claim3_terminal_state_witness :
    ((start_backup demoTarget .manual "ops" none demoBackupEnv).2.all
      (fun r => r.status.isTerminal)) = true
    ∧ ((start_restore demoDoneBackup demoTarget "ops" none demoRestoreEnv).2.all
      (fun r => r.status.isTerminal)) = true :=
  ⟨claim3_terminal_state.1 demoTarget .manual "ops" none demoBackupEnv
     (fun _ h => Option.noConfusion h),
   claim3_terminal_state.2 demoDoneBackup demoTarget "ops" none demoRestoreEnv⟩

/-- C8 counterexample: with the most recent firing at time 100 and the
last scheduled run started at time 50, the due-check returns true, while
the claim (due when the firing time precedes the run start, and a prior
run exists) predicts false — the claim states the comparison backwards. -/
theorem claim8_due_check_counterexample :
    _is_due_for_backup cex8Cron cex8Db demoTarget 1000 = true
    ∧ get_last_scheduled_run cex8Db demoTarget = some cex8Run
    ∧ cex8Cron demoTarget.schedule 1000 = .ok 100
    ∧ ¬((100 : Int) < cex8Run.startedAt) :=
  ⟨rfl, rfl, rfl, by decide⟩

/-- C8 (amended: the due condition runs the other way): for a non-empty
valid schedule the due-check is true exactly when there is no prior
scheduled run or the last one started before the most recent firing
time; and the trigger step skips a target with an active run without
invoking `start_backup`. -/
theorem claim8_due_check (cronPrev : String → Int → CronPrevResult) (db : MDb)
    (target : MTarget) (now t : Int)
    (hsched : target.schedule ≠ "")
    (hcron : cronPrev target.schedule now = .ok t) :
    (_is_due_for_backup cronPrev db target now = true ↔
      (get_last_scheduled_run db target = none ∨
       ∃ lr, get_last_scheduled_run db target = some lr ∧ lr.startedAt < t))
    ∧ (∀ env : BackupEnv, (get_active_run db target).isSome = true →
      _trigger_backup db target env = (.skipped, false)) := by
  constructor
  · unfold _is_due_for_backup
    rw [if_neg hsched, hcron]
    cases hl : get_last_scheduled_run db target with
    | none => simp
    | some lr => simp
  · intro env hact
    unfold _trigger_backup
    rw [if_pos hact]

/-- Witness for C8: the concrete database of the counterexample is due,
and a target with a running backup is skipped without an invocation. -/
theorem claim8_due_check_witness :
    _is_due_for_backup cex8Cron cex8Db demoTarget 1000 = true
    ∧ _trigger_backup wit8ActiveDb demoTarget demoBackupEnv = (.skipped, false) :=
  ⟨(claim8_due_check cex8Cron cex8Db demoTarget 1000 100 (by decide) (by rfl)).1.mpr
     (Or.inr ⟨cex8Run, by rfl, by decide⟩),
   (claim8_due_check cex8Cron wit8ActiveDb demoTarget 1000 100 (by decide) (by rfl)).2
     demoBackupEnv (by rfl)⟩

/-- C5: `get_backups_to_delete` returns exactly the target's success
runs finished strictly before `now` minus the target's own retention
period, with no referencing restore run of any status, ordered oldest
finished time first. -/
theorem claim5_retention_query (db : MDb) (target : MTarget) (now : Int) :
    (∀ r, r ∈ get_backups_to_delete db target now ↔
      (r ∈ db.backupRuns ∧ r.targetId = target.id ∧ r.status = .success ∧
       (∃ f, r.finishedAt = some f ∧ f < now - (target.retentionDays : Int) * 86400) ∧
       ∀ rr ∈ db.restoreRuns, rr.backupRunId ≠ r.id))
    ∧ (get_backups_to_delete db target now).Pairwise
        (fun a b => a.finishedAt.getD 0 ≤ b.finishedAt.getD 0) := by
  constructor
  · intro r
    simp only [get_backups_to_delete]
    rw [mem_sortLe, List.mem_filter]
    constructor
    · rintro ⟨hmem, hcond⟩
      refine ⟨hmem, ?_⟩
      simp only [Bool.and_eq_true, beq_iff_eq, Bool.not_eq_true', List.any_eq_false] at hcond
      obtain ⟨⟨⟨ht, hs⟩, hf⟩, hnr⟩ := hcond
      refine ⟨ht, hs, ?_, ?_⟩
      · cases hfin : r.finishedAt with
        | none => rw [hfin] at hf; exact absurd hf (by simp)
        | some f => rw [hfin] at hf; exact ⟨f, rfl, of_decide_eq_true hf⟩
      · intro rr hrr heq
        have hx := hnr rr hrr
        simp [heq] at hx
    · rintro ⟨hmem, ht, hs, ⟨f, hf, hlt⟩, hnr⟩
      refine ⟨hmem, ?_⟩
      simp only [Bool.and_eq_true, beq_iff_eq, Bool.not_eq_true', List.any_eq_false]
      refine ⟨⟨⟨ht, hs⟩, ?_⟩, ?_⟩
      · rw [hf]
        exact decide_eq_true hlt
      · intro rr hrr
        simp [hnr rr hrr]
  · simp only [get_backups_to_delete]
    refine List.Pairwise.imp ?_ (pairwise_sortLe ?_ ?_ _)
    · intro a b h
      exact of_decide_eq_true h
    · intro a b
      rcases le_total (a.finishedAt.getD 0) (b.finishedAt.getD 0) with h | h
      · exact Or.inl (decide_eq_true h)
      · exact Or.inr (decide_eq_true h)
    · intro a b c hab hbc
      exact decide_eq_true (le_trans (of_decide_eq_true hab) (of_decide_eq_true hbc))

/-- Witness for C5: the 30-day-old successful run is selected one second
past its cutoff. -/
theorem claim5_retention_query_witness :
    wit5OldRun ∈ get_backups_to_delete wit5Db demoTarget wit5Now :=
  ((claim5_retention_query wit5Db demoTarget wit5Now).1 wit5OldRun).mpr
    ⟨by simp [wit5Db], by rfl, by rfl, ⟨100, by rfl, by decide⟩, by simp [wit5Db]⟩

/-- C9 counterexample: with six qualifying failures of one target the
endpoint returns only five entries (the per-target query is capped at 5
before the overall cap of 10), so the list does not contain exactly the
qualifying runs even though their number is below 10. -/
theorem claim9_recent_failures_counterexample :
    (health_recent_failures cex9Db 100).length = 5
    ∧ (cex9Db.backupRuns.filter (isRecentFailure demoTarget 100)).length = 6 :=
  ⟨rfl, rfl⟩

/-- C9 (amended by the per-target cap): every entry comes from a
qualifying failed/timeout run of an active target and exposes only the
target name, start time and status; the list is sorted newest first and
holds at most 10 entries; and it contains every qualifying run when no
target has more than 5 of them and there are at most 10 in total. -/
theorem claim9_recent_failures (db : MDb) (now : Int) :
    (∀ e ∈ health_recent_failures db now,
      ∃ t ∈ db.targets, t.status = .active ∧ e.target = t.name ∧
      ∃ r ∈ db.backupRuns, isRecentFailure t now r = true ∧
        e.timestamp = r.startedAt ∧ e.status = r.status)
    ∧ (health_recent_failures db now).Pairwise (fun a b => b.timestamp ≤ a.timestamp)
    ∧ (health_recent_failures db now).length ≤ 10
    ∧ ((∀ t ∈ db.targets, (db.backupRuns.filter (isRecentFailure t now)).length ≤ 5) →
       (healthFailuresCollected db now).length ≤ 10 →
       ∀ t ∈ db.targets, t.status = .active →
       ∀ r ∈ db.backupRuns, isRecentFailure t now r = true →
         (⟨t.name, r.startedAt, r.status⟩ : FailureEntry) ∈ health_recent_failures db now) := by
  refine ⟨?_, ?_, ?_, ?_⟩
  · intro e he
    simp only [health_recent_failures] at he
    have h1 := List.mem_of_mem_take he
    rw [mem_sortLe] at h1
    simp only [healthFailuresCollected] at h1
    rcases List.mem_flatMap.mp h1 with ⟨t, htmem, hemem⟩
    simp only [healthTargets] at htmem
    rw [mem_sortLe, List.mem_filter] at htmem
    obtain ⟨htdb, hact⟩ := htmem
    rcases List.mem_map.mp hemem with ⟨r, hrmem, hre⟩
    simp only [targetRecentFailures] at hrmem
    have hrmem2 := List.mem_of_mem_take hrmem
    rw [mem_sortLe, List.mem_filter] at hrmem2
    obtain ⟨hrdb, hrq⟩ := hrmem2
    subst hre
    exact ⟨t, htdb, by simpa using hact, rfl, r, hrdb, hrq, rfl, rfl⟩
  · simp only [health_recent_failures]
    refine List.Pairwise.imp (fun h => of_decide_eq_true h)
      (List.Pairwise.sublist (List.take_sublist 10 _) (pairwise_sortLe ?_ ?_ _))
    · intro a b
      rcases le_total b.timestamp a.timestamp with h | h
      · exact Or.inl (decide_eq_true h)
      · exact Or.inr (decide_eq_true h)
    · intro a b c hab hbc
      exact decide_eq_true (le_trans (of_decide_eq_true hbc) (of_decide_eq_true hab))
  · simp only [health_recent_failures]
    exact List.length_take_le 10 _
  · intro hper htot t htdb hact r hrdb hrq
    have hrmem5 : r ∈ targetRecentFailures db t now := by
      simp only [targetRecentFailures]
      have hlen : (sortLe (fun a b => decide (b.startedAt ≤ a.startedAt))
          (db.backupRuns.filter (isRecentFailure t now))).length ≤ 5 := by
        rw [length_sortLe]
        exact hper t htdb
      rw [List.take_of_length_le hlen, mem_sortLe, List.mem_filter]
      exact ⟨hrdb, hrq⟩
    have htmem : t ∈ healthTargets db := by
      simp only [healthTargets]
      rw [mem_sortLe, List.mem_filter]
      exact ⟨htdb, by simp [hact]⟩
    have hcol : (⟨t.name, r.startedAt, r.status⟩ : FailureEntry) ∈
        healthFailuresCollected db now := by
      simp only [healthFailuresCollected]
      exact List.mem_flatMap.mpr ⟨t, htmem, List.mem_map.mpr ⟨r, hrmem5, rfl⟩⟩
    simp only [health_recent_failures]
    have hlen10 : (sortLe (fun a b => decide (b.timestamp ≤ a.timestamp))
        (healthFailuresCollected db now)).length ≤ 10 := by
      rw [length_sortLe]
      exact htot
    rw [List.take_of_length_le hlen10, mem_sortLe]
    exact hcol

/-- Witness for C9: in a database below every cap, a concrete qualifying
timeout run appears in the list. -/
theorem claim9_recent_failures_witness :
    (⟨"nyxmon", 70, .timeout⟩ : FailureEntry) ∈ health_recent_failures wit9Db 100 :=
  (claim9_recent_failures wit9Db 100).2.2.2 (by decide) (by decide)
    demoTarget (by simp [wit9Db]) (by rfl) wit9Run (by simp [wit9Db, wit9Run]) (by decide)

/-- C1 counterexample: a reachable interleaving in which target 1 holds
an active backup and an active restore at the same time — a restore is
created (its critical section sees no active backup), and `start_backup`
then inserts a backup run, checking only the per-kind constraint and
never the restore table. -/
theorem claim1_cross_exclusion_counterexample :
    Reachable cex1State
    ∧ hasActiveBackupFor cex1State 1 = true
    ∧ hasActiveRestoreFor cex1State 1 = true := by
  refine ⟨?_, rfl, rfl⟩
  have s1 : SysStep initState ⟨[demoPendingBackup], []⟩ :=
    SysStep.backupCreate initState demoPendingBackup rfl rfl
  have s2 : SysStep ⟨[demoPendingBackup], []⟩ ⟨[demoDoneBackup], []⟩ :=
    SysStep.backupUpdate ⟨[demoPendingBackup], []⟩ 0 .success (by decide) (by rfl)
  have s3 : SysStep ⟨[demoDoneBackup], []⟩ ⟨[demoDoneBackup], [demoPendingRestore]⟩ :=
    SysStep.restoreCreate ⟨[demoDoneBackup], []⟩ demoPendingRestore rfl (by rfl) (by rfl) (by rfl)
  have s4 : SysStep ⟨[demoDoneBackup], [demoPendingRestore]⟩ cex1State :=
    SysStep.backupCreate ⟨[demoDoneBackup], [demoPendingRestore]⟩ cex1NewBackup rfl (by rfl)
  exact ((((Relation.ReflTransGen.refl).tail s1).tail s2).tail s3).tail s4

/-- C1 (amended to what the code guarantees): every reachable state has
at most one active backup and at most one active restore per target
(the per-kind uniqueness constraints), and a restore is only ever
created in a state with no active backup for its target; the cross-kind
exclusion in the other direction does not hold, as the counterexample
state shows. -/
theorem claim1_per_kind_mutex :
    (∀ s, Reachable s → ∀ t,
      countActiveBackups s t ≤ 1 ∧ countActiveRestores s t ≤ 1)
    ∧ (∀ s s' (r : MRestoreRun), SysStep s s' → s'.restores = r :: s.restores →
        hasActiveBackupFor s r.targetId = false) := by
  constructor
  · intro s h
    induction h with
    | refl =>
      intro t
      exact ⟨by simp [countActiveBackups, initState], by simp [countActiveRestores, initState]⟩
    | @tail b c hab hstep ih =>
      intro t
      obtain ⟨ihb, ihr⟩ := ih t
      cases hstep with
      | backupCreate run hp hguard =>
        refine ⟨?_, ihr⟩
        show (run :: b.backups).countP (fun x => x.targetId == t && x.status.isActive) ≤ 1
        rw [List.countP_cons]
        by_cases ht : run.targetId = t
        · subst ht
          have hzero : b.backups.countP
              (fun x => x.targetId == run.targetId && x.status.isActive) = 0 := by
            rw [List.countP_eq_zero]
            intro x hx
            exact List.any_eq_false.mp hguard x hx
          rw [hzero]
          split <;> omega
        · have hpr : (run.targetId == t && run.status.isActive) = false := by
            simp [ht]
          rw [hpr]
          simpa using ihb
      | backupUpdate i st hlt hact =>
        refine ⟨?_, ihr⟩
        refine le_trans (countP_set_le _ b.backups i _ hlt ?_) ihb
        intro hpa
        simp only [Bool.and_eq_true] at hpa ⊢
        exact ⟨hpa.1, hact⟩
      | restoreCreate run hp hsrc hgb hgr =>
        refine ⟨ihb, ?_⟩
        show (run :: b.restores).countP (fun x => x.targetId == t && x.status.isActive) ≤ 1
        rw [List.countP_cons]
        by_cases ht : run.targetId = t
        · subst ht
          have hzero : b.restores.countP
              (fun x => x.targetId == run.targetId && x.status.isActive) = 0 := by
            rw [List.countP_eq_zero]
            intro x hx
            exact List.any_eq_false.mp hgr x hx
          rw [hzero]
          split <;> omega
        · have hpr : (run.targetId == t && run.status.isActive) = false := by
            simp [ht]
          rw [hpr]
          simpa using ihr
      | restoreUpdate i st hlt hact =>
        refine ⟨ihb, ?_⟩
        refine le_trans (countP_set_le _ b.restores i _ hlt ?_) ihr
        intro hpa
        simp only [Bool.and_eq_true] at hpa ⊢
        exact ⟨hpa.1, hact⟩
  · intro s s' r hstep heq
    cases hstep with
    | backupCreate run hp hg =>
      have hl := congrArg List.length heq
      simp at hl
    | backupUpdate i st hlt hact =>
      have hl := congrArg List.length heq
      simp at hl
    | restoreCreate run hp hsrc hgb hgr =>
      injection heq with h1 h2
      subst h1
      exact hgb
    | restoreUpdate i st hlt hact =>
      have hl := congrArg List.length heq
      simp at hl

/-- Witness for C1 at the empty reachable state and target 1. -/
theorem claim1_per_kind_mutex_witness :
    countActiveBackups initState 1 ≤ 1 ∧ countActiveRestores initState 1 ≤ 1 :=
  claim1_per_kind_mutex.1 initState Relation.ReflTransGen.refl 1

end Echoport
